import Mathlib

/-!
Verification of the kubernetes-extension operation handlers.

The Go sources (`pkg/extension/namespace.go`, `pkg/extension/extension.go`,
the helm handlers, and `pkg/extension/operations.go`) are shallowly embedded
as pure Lean functions.  Effects of the abstract resource-API client, of the
random source, and of the shell executor are passed in as explicit function
parameters, and each handler additionally returns the trace of the external
calls it issued, so that "no call is made" claims are expressible.
-/

namespace KubeExt

/-- Dynamic Go values (`any` / `map[string]any`), as far as the handlers
inspect them: strings, booleans, string-keyed maps, and anything else.
This embeds Go's type assertions `x.(string)`, `x.(bool)`,
`x.(map[string]any)`: an assertion on a non-matching value yields the zero
value of the target type. -/
inductive GoValue where
  | str (s : String)
  | boolean (b : Bool)
  | vmap (fields : List (String × GoValue))
  | other

/-- `args[k].(string)` with the `ok` flag dropped: a missing key or a
non-string value gives the zero value `""`. -/
def lookupString (m : List (String × GoValue)) (k : String) : String :=
  match m.lookup k with
  | some (GoValue.str s) => s
  | _ => ""

/-- `args[k].(bool)` with the `ok` flag dropped: zero value `false`. -/
def lookupBool (m : List (String × GoValue)) (k : String) : Bool :=
  match m.lookup k with
  | some (GoValue.boolean b) => b
  | _ => false

/-- `args[k].(map[string]any)` with the `ok` flag dropped: zero value is the
empty map. -/
def lookupMap (m : List (String × GoValue)) (k : String) : List (String × GoValue) :=
  match m.lookup k with
  | some (GoValue.vmap v) => v
  | _ => []

/-- The uniform operation result of the mcpchecker SDK (an external
collaborator of this repository).  Per the spec's data model, `error` is
non-empty iff `success` is false; `outputs` is a string-to-string mapping. -/
structure OperationResult where
  success : Bool
  message : String
  outputs : List (String × String)
  error : String
deriving Repr, DecidableEq

/-- `sdk.Failure(err)`: a failed result carrying the error text. -/
def sdkFailure (emsg : String) : OperationResult :=
  { success := false, message := emsg, outputs := [], error := emsg }

/-- `sdk.Success(msg)`: a successful result with no outputs. -/
def sdkSuccess (msg : String) : OperationResult :=
  { success := true, message := msg, outputs := [], error := "" }

/-- `sdk.SuccessWithOutputs(msg, outputs)`. -/
def sdkSuccessWithOutputs (msg : String) (outs : List (String × String)) : OperationResult :=
  { success := true, message := msg, outputs := outs, error := "" }

/-! ## Namespace generator (`namespace.go`, `generateID`) -/

/-- `const alphanumeric = "abcdefghijklmnopqrstuvwxyz0123456789"` -/
def alphanumeric : String := "abcdefghijklmnopqrstuvwxyz0123456789"

/-- One step of the id loop: `b[i] = alphanumeric[int(b[i])%len(alphanumeric)]`.
A random byte (0–255) is mapped to a character of the 36-symbol alphabet. -/
def byteToChar (b : Nat) : Char :=
  alphanumeric.toList.getD (b % alphanumeric.length) 'a'

/-- `generateID`, split at the `rand.Read` boundary: the random source is
embedded as the already-drawn byte list (its possible failure is the
`Except.error` case of the `randBytes` argument of `handleCreateNamespace`),
and this function is the pure mapping of those bytes to the id string. -/
def generateID (bytes : List Nat) : String :=
  String.mk (bytes.map byteToChar)

/-- How many of the 256 byte values select alphabet position `i`
(the map is `b ↦ b % 36`). -/
def indexCount (i : Nat) : Nat :=
  ((List.range 256).filter (fun b => b % alphanumeric.length == i)).length

/-- A character of the generated-id alphabet: lowercase letter or digit. -/
def isLowerAlnum (c : Char) : Bool :=
  (('a' ≤ c && c ≤ 'z') || ('0' ≤ c && c ≤ '9'))

/-- The name shape `P-[a-z0-9]{8}`: the prefix, a hyphen, then an 8-character
lowercase-alphanumeric id. -/
def matchesGeneratedName (pfx s : String) : Prop :=
  ∃ ident : String, s = pfx ++ "-" ++ ident ∧ ident.length = 8 ∧
    ident.toList.all isLowerAlnum = true

/-! ## createNamespace handler (`namespace.go`, `handleCreateNamespace`) -/

/-- The outcome of one `handleCreateNamespace` run: the operation result, the
tracked generated-namespace list after the run, and the names the handler
asked the resource client to create (the call trace). -/
structure CreateRun where
  result : OperationResult
  tracked : List String
  createCalls : List String
deriving Repr, DecidableEq

/-- `handleCreateNamespace`.  `clientOk` embeds `e.client != nil`;
`createFn` is the resource client's `Create`, returning the stored object's
name (`result.GetName()`) or an error; `randBytes` is the outcome of
`rand.Read` for the 8 requested bytes; `args` is `req.Args`; `tracked` is
`e.generatedNamespaces` before the call.  The mutex-guarded append is the
`tracked ++ [stored]` state transition. -/
def handleCreateNamespace (clientOk : Bool) (createFn : String → Except String String)
    (randBytes : Except String (List Nat)) (args : GoValue)
    (tracked : List String) : CreateRun :=
  if !clientOk then
    ⟨sdkFailure "kubernetes client not initialized", tracked, []⟩
  else
    match args with
    | GoValue.vmap m =>
      let pfx := lookupString m "prefix"
      if pfx = "" then ⟨sdkFailure "prefix is required", tracked, []⟩
      else
        match randBytes with
        | Except.error e => ⟨sdkFailure ("failed to generate random id: " ++ e), tracked, []⟩
        | Except.ok bs =>
          let name := pfx ++ "-" ++ generateID bs
          match createFn name with
          | Except.error e =>
            ⟨sdkFailure ("failed to create namespace: " ++ e), tracked, [name]⟩
          | Except.ok stored =>
            ⟨sdkSuccessWithOutputs ("Created namespace " ++ stored) [("namespace", stored)],
             tracked ++ [stored], [name]⟩
    | _ => ⟨sdkFailure "args must be an object", tracked, []⟩

/-! ## deleteGeneratedNamespaces handler (`namespace.go`,
`handleDeleteGeneratedNamespaces`) -/

/-- Deletion propagation policy of `metav1.DeleteOptions`; the handler always
passes `DeletePropagationForeground`. -/
inductive Propagation where
  | foreground
  | background
  | orphan
deriving Repr, DecidableEq

/-- Outcome of one resource-client `Delete` call, with the not-found class
distinguished (`apierrors.IsNotFound`). -/
inductive DeleteOutcome where
  | ok
  | notFound
  | failed (msg : String)
deriving Repr, DecidableEq

/-- `true` exactly for the non-not-found error class. -/
def isHardError : DeleteOutcome → Bool
  | DeleteOutcome.failed _ => true
  | _ => false

/-- The outcome of one `handleDeleteGeneratedNamespaces` run: the operation
result, the tracked list after the run, the delete calls issued (name and
propagation policy, in order), and the collected `errs` slice. -/
structure DeleteRun where
  result : OperationResult
  tracked : List String
  deleteCalls : List (String × Propagation)
  errs : List String
deriving Repr, DecidableEq

/-- The per-namespace error entry `fmt.Sprintf("%s: %s", ns, err.Error())`
collected for non-not-found failures, `nil` for success or not-found. -/
def deleteErrEntry (deleteFn : String → Propagation → DeleteOutcome) (ns : String) :
    Option String :=
  match deleteFn ns Propagation.foreground with
  | DeleteOutcome.ok => none
  | DeleteOutcome.notFound => none
  | DeleteOutcome.failed m => some (ns ++ ": " ++ m)

/-- `handleDeleteGeneratedNamespaces`.  The mutex-guarded block that copies
`e.generatedNamespaces` and sets it to `nil` is the atomic snapshot-and-clear
state transition at the head of the function: every later step operates on
the snapshot only, and the returned tracked list is what the shared state was
left as by that swap. -/
def handleDeleteGeneratedNamespaces (clientOk : Bool)
    (deleteFn : String → Propagation → DeleteOutcome)
    (tracked : List String) : DeleteRun :=
  if !clientOk then
    ⟨sdkFailure "kubernetes client not initialized", tracked, [], []⟩
  else
    let namespaces := tracked
    if namespaces.length = 0 then
      ⟨sdkSuccess "No generated namespaces to delete", [], [], []⟩
    else
      let errs := namespaces.filterMap (deleteErrEntry deleteFn)
      if 0 < errs.length then
        ⟨sdkFailure ("failed to delete namespaces: " ++ String.intercalate "; " errs),
         [], namespaces.map (fun ns => (ns, Propagation.foreground)), errs⟩
      else
        ⟨sdkSuccess ("Deleted " ++ toString namespaces.length ++ " generated namespace(s)"),
         [], namespaces.map (fun ns => (ns, Propagation.foreground)), errs⟩

/-! ## Helm handlers (`helm.go`) -/

/-- The outcome of one `handleHelmInstall` / `handleHelmList` /
`handleHelmUninstall` run: the operation result and the argument vectors of
the `helm` shell invocations issued (the program name `helm` is fixed by
`exec.CommandContext(ctx, "helm", cmdArgs...)` and is not repeated). -/
structure HelmRun where
  result : OperationResult
  execCalls : List (List String)
deriving Repr, DecidableEq

/-- Abstraction of Go's `fmt.Sprintf("%v", v)` for the dynamic chart values
passed as `--set` flags; exact for strings and booleans (the shapes the
declarative tasks use), schematic for the other dynamic shapes. -/
def goFormat : GoValue → String
  | GoValue.str s => s
  | GoValue.boolean true => "true"
  | GoValue.boolean false => "false"
  | GoValue.vmap _ => "map"
  | GoValue.other => "<value>"

/-- `strings.Contains(s, pat)` for a non-empty pattern, via `splitOn`:
the pattern occurs iff splitting on it yields more than one part. -/
def strContains (s pat : String) : Bool :=
  1 < (s.splitOn pat).length

/-- `handleHelmInstall`.  `exec cmdArgs` is `cmd.CombinedOutput()` for
`helm cmdArgs...`: the combined output plus `some errText` when the command
failed.  The `values` map is iterated in the order of the embedded list
(Go's map iteration order is unspecified). -/
def handleHelmInstall (kubeconfigPath : String)
    (exec : List String → String × Option String) (args : GoValue) : HelmRun :=
  match args with
  | GoValue.vmap m =>
    let chart := lookupString m "chart"
    if chart = "" then ⟨sdkFailure "chart parameter is required", []⟩
    else
      let name := lookupString m "name"
      let nsArg := lookupString m "namespace"
      let values := lookupMap m "values"
      let cmdArgs := ["install"]
        ++ (if name ≠ "" then [name] else ["--generate-name"])
        ++ [chart]
        ++ (if nsArg ≠ "" then ["--namespace", nsArg] else [])
        ++ (if kubeconfigPath ≠ "" then ["--kubeconfig", kubeconfigPath] else [])
        ++ values.flatMap (fun kv => ["--set", kv.1 ++ "=" ++ goFormat kv.2])
      match exec cmdArgs with
      | (output, some emsg) =>
        ⟨sdkFailure ("helm install failed: " ++ emsg ++ "\nOutput: " ++ output), [cmdArgs]⟩
      | (output, none) =>
        ⟨sdkSuccess ("Helm chart installed successfully\n" ++ output), [cmdArgs]⟩
  | _ => ⟨sdkFailure "args must be an object", []⟩

/-- The per-release line of `handleHelmList`'s report. -/
def helmReleaseLine (r : List (String × GoValue)) : String :=
  "  - " ++ lookupString r "name" ++ " (namespace: " ++ lookupString r "namespace"
    ++ ", status: " ++ lookupString r "status" ++ ", chart: " ++ lookupString r "chart"
    ++ ")\n"

/-- `handleHelmList`.  `parse` embeds `json.Unmarshal` of the helm output
into `[]map[string]interface{}`. -/
def handleHelmList (kubeconfigPath : String)
    (exec : List String → String × Option String)
    (parse : String → Except String (List (List (String × GoValue))))
    (args : GoValue) : HelmRun :=
  match args with
  | GoValue.vmap m =>
    let nsArg := lookupString m "namespace"
    let allNamespaces := lookupBool m "allNamespaces"
    let cmdArgs := ["list", "--output", "json"]
      ++ (if allNamespaces then ["--all-namespaces"]
          else if nsArg ≠ "" then ["--namespace", nsArg] else [])
      ++ (if kubeconfigPath ≠ "" then ["--kubeconfig", kubeconfigPath] else [])
    match exec cmdArgs with
    | (output, some emsg) =>
      ⟨sdkFailure ("helm list failed: " ++ emsg ++ "\nOutput: " ++ output), [cmdArgs]⟩
    | (output, none) =>
      match (if 0 < output.length then parse output else Except.ok []) with
      | Except.error pe => ⟨sdkFailure ("failed to parse helm list output: " ++ pe), [cmdArgs]⟩
      | Except.ok releases =>
        if releases.length = 0 then ⟨sdkSuccess "No Helm releases found", [cmdArgs]⟩
        else
          ⟨sdkSuccess ("Found " ++ toString releases.length ++ " Helm release(s):\n"
            ++ String.join (releases.map helmReleaseLine)), [cmdArgs]⟩
  | _ => ⟨sdkFailure "args must be an object", []⟩

/-- `handleHelmUninstall`. -/
def handleHelmUninstall (kubeconfigPath : String)
    (exec : List String → String × Option String) (args : GoValue) : HelmRun :=
  match args with
  | GoValue.vmap m =>
    let name := lookupString m "name"
    if name = "" then ⟨sdkFailure "name parameter is required", []⟩
    else
      let nsArg := lookupString m "namespace"
      let cmdArgs := ["uninstall", name]
        ++ (if nsArg ≠ "" then ["--namespace", nsArg] else [])
        ++ (if kubeconfigPath ≠ "" then ["--kubeconfig", kubeconfigPath] else [])
      match exec cmdArgs with
      | (output, some emsg) =>
        if strContains output "not found" then
          ⟨sdkSuccess ("Helm release '" ++ name ++ "' not found (already uninstalled)"), [cmdArgs]⟩
        else
          ⟨sdkFailure ("helm uninstall failed: " ++ emsg ++ "\nOutput: " ++ output), [cmdArgs]⟩
      | (output, none) =>
        ⟨sdkSuccess ("Helm release '" ++ name ++ "' uninstalled successfully\n" ++ output), [cmdArgs]⟩
  | _ => ⟨sdkFailure "args must be an object", []⟩

/-! ## Condition-wait engine -/

/-- One `{type, status, ...}` entry of a resource's status-conditions
collection. -/
structure CondEntry where
  ctype : String
  status : String

/-- One read of the target resource by the wait loop: not-found, a hard read
error, or the resource with its ordered status-conditions sequence. -/
inductive ReadResult where
  | notFound
  | readError (msg : String)
  | found (conds : List CondEntry)

/-- Condition evaluation: scan the ordered conditions for the first entry
whose `type` equals the requested condition name; satisfied iff it exists
and its `status` equals the expected status. -/
def condSatisfied (conds : List CondEntry) (cond expected : String) : Bool :=
  match conds.find? (fun c => c.ctype == cond) with
  | some c => c.status == expected
  | none => false

/-- Whether the read at instant `t` yields the requested condition with the
expected status. -/
def readSat (read : Nat → ReadResult) (cond expected : String) (t : Nat) : Bool :=
  match read t with
  | ReadResult.found conds => condSatisfied conds cond expected
  | _ => false

/-- Whether the read at instant `t` is a hard (non-not-found) error. -/
def readFailed (read : Nat → ReadResult) (t : Nat) : Bool :=
  match read t with
  | ReadResult.readError _ => true
  | _ => false

/-- Terminal states of the wait state machine
(`POLLING -> {SATISFIED, TIMED_OUT, FAILED}`). -/
inductive WaitOutcome where
  | satisfied (elapsed : Nat)
  | timedOut
  | failed (msg : String)
deriving Repr, DecidableEq

/-- Modelled from the spec: the `wait` operation's handler (`handleWait`) is
registered in `operations.go` but its body is not among the provided
sources; this is the spec's polling state machine (§4.3).  `read t` is the
resource read at elapsed time `t`; polls happen at `0, interval,
2*interval, …` against the deadline.  Each iteration reads the resource,
transitions to FAILED on a hard read error, treats not-found as
condition-not-yet-satisfied, checks the condition BEFORE checking the
deadline (so satisfaction exactly at the deadline counts), and otherwise
sleeps one interval and re-polls. -/
def waitFrom (read : Nat → ReadResult) (cond expected : String)
    (deadline interval : Nat) (hi : 0 < interval) (now : Nat) : WaitOutcome :=
  match read now with
  | ReadResult.readError m => WaitOutcome.failed m
  | ReadResult.notFound =>
    if _h : deadline ≤ now then WaitOutcome.timedOut
    else waitFrom read cond expected deadline interval hi (now + interval)
  | ReadResult.found conds =>
    if condSatisfied conds cond expected then WaitOutcome.satisfied now
    else if _h : deadline ≤ now then WaitOutcome.timedOut
    else waitFrom read cond expected deadline interval hi (now + interval)
termination_by deadline + 1 - now
decreasing_by all_goals omega

/-- Modelled from the spec: the whole `wait` invocation, entered at elapsed
time `0` (deadline = now + timeout, with entry `now` normalized to `0`). -/
def waitForCondition (read : Nat → ReadResult) (cond expected : String)
    (deadline interval : Nat) (hi : 0 < interval) : WaitOutcome :=
  waitFrom read cond expected deadline interval hi 0

/-! ## Permission probe (authCanI) -/

/-- The permission query handed to the resource client's permission-check
capability. -/
structure PermissionQuery where
  verb : String
  resource : String
  subject : String
  nsName : String
  apiGroup : String
  resourceName : String
deriving Repr, DecidableEq

/-- Go's `strconv`-style rendering of a boolean for the outputs map. -/
def boolString (b : Bool) : String := if b then "true" else "false"

/-- Modelled from the spec: the `authCanI` handler (`handleAuthCanI`) is
registered in `operations.go` but its body is not among the provided
sources; this is the spec's permission probe (§4.4, §6).  It validates the
required `verb` / `resource` / `as` fields, issues a single permission
check, and — when `expect.allowed` is supplied — defines success as
`allowed == expectedAllowed` while always surfacing the raw `allowed` value
in the outputs. -/
def handleAuthCanI (check : PermissionQuery → Except String Bool)
    (args : GoValue) : OperationResult :=
  match args with
  | GoValue.vmap m =>
    let verb := lookupString m "verb"
    let resource := lookupString m "resource"
    let subject := lookupString m "as"
    if verb = "" then sdkFailure "verb is required"
    else if resource = "" then sdkFailure "resource is required"
    else if subject = "" then sdkFailure "as is required"
    else
      let q : PermissionQuery :=
        ⟨verb, resource, subject, lookupString m "namespace",
         lookupString m "apiGroup", lookupString m "resourceName"⟩
      match check q with
      | Except.error e => sdkFailure ("permission check failed: " ++ e)
      | Except.ok allowed =>
        let outs := [("allowed", boolString allowed)]
        match (lookupMap m "expect").lookup "allowed" with
        | some (GoValue.boolean expectedAllowed) =>
          if allowed == expectedAllowed then
            { success := true, message := "allowed: " ++ boolString allowed,
              outputs := outs, error := "" }
          else
            { success := false, message := "expected allowed=" ++ boolString expectedAllowed
                ++ ", got allowed=" ++ boolString allowed,
              outputs := outs,
              error := "expected allowed=" ++ boolString expectedAllowed
                ++ ", got allowed=" ++ boolString allowed }
        | _ =>
          { success := true, message := "allowed: " ++ boolString allowed,
            outputs := outs, error := "" }
  | _ => sdkFailure "args must be an object"

/-- The poll at which the loop entered at `now` succeeds: some `k`-th poll
instant reads the satisfied condition, while every earlier poll neither
hard-fails nor satisfies and lies strictly before the deadline. -/
def satWitnessFrom (read : Nat → ReadResult) (c e : String) (dl i now : Nat) : Prop :=
  ∃ k, readSat read c e (now + k * i) = true ∧
    ∀ j < k, readFailed read (now + j * i) = false ∧
      readSat read c e (now + j * i) = false ∧ now + j * i < dl

/-- A positive poll interval of two time units. -/
def pos2 : (0 : Nat) < 2 := by decide

/-- A resource that is present but unsatisfied through t = 1 and satisfied
from t = 2 on. -/
def readLate : Nat → ReadResult := fun t =>
  if t ≤ 1 then ReadResult.found [] else ReadResult.found [⟨"Ready", "True"⟩]

/-- A resource that never exists. -/
def readNone : Nat → ReadResult := fun _ => ReadResult.notFound

/-! ## Helper lemmas -/

/-- Every alphabet position below 36 holds a lowercase-alphanumeric
character. -/
lemma alnum_getD_mem : ∀ j, j < 36 → isLowerAlnum (alphanumeric.toList.getD j 'a') = true := by
  decide

/-- Every byte value is mapped into the lowercase-alphanumeric alphabet. -/
lemma byteToChar_isLowerAlnum (b : Nat) : isLowerAlnum (byteToChar b) = true := by
  have hlen : alphanumeric.length = 36 := by decide
  have hb : b % alphanumeric.length < 36 := by
    rw [hlen]; exact Nat.mod_lt _ (by omega)
  exact alnum_getD_mem _ hb

/-- The generated id has one character per random byte. -/
lemma generateID_length (bs : List Nat) : (generateID bs).length = bs.length := by
  simp [generateID]

/-- Every character of the generated id is lowercase alphanumeric. -/
lemma generateID_alnum (bs : List Nat) : (generateID bs).toList.all isLowerAlnum = true := by
  simp only [generateID, String.toList, List.all_eq_true]
  intro c hc
  rcases List.mem_map.mp hc with ⟨b, _, rfl⟩
  exact byteToChar_isLowerAlnum b

/-- The name built from an 8-byte id matches `P-[a-z0-9]{8}`. -/
lemma matchesGeneratedName_of_bytes (pfx : String) (bs : List Nat) (hlen : bs.length = 8) :
    matchesGeneratedName pfx (pfx ++ "-" ++ generateID bs) :=
  ⟨generateID bs, rfl, by rw [generateID_length, hlen], generateID_alnum bs⟩

/-! ## C1, C3, C9 -/

/-- C1: for every non-empty prefix `P`, a successful `createNamespace` run
(initialized client, random source and resource-API create both succeeding,
the client storing the namespace under the requested name as the resource
API does) returns a result whose outputs carry the key `"namespace"` with a
value of shape `P-[a-z0-9]{8}`, and appends exactly that same name to the
tracked generated-namespace list, growing it by exactly one. -/
theorem createNamespace_success_tracks_generated_name
    (pfx : String) (hpfx : pfx ≠ "")
    (createFn : String → Except String String) (hecho : ∀ n, createFn n = Except.ok n)
    (bs : List Nat) (hlen : bs.length = 8) (tracked : List String)
    (name : String) (hname : name = pfx ++ "-" ++ generateID bs) :
    let r := handleCreateNamespace true createFn (Except.ok bs)
      (GoValue.vmap [("prefix", GoValue.str pfx)]) tracked
    r.result.success = true ∧
    r.result.outputs.lookup "namespace" = some name ∧
    matchesGeneratedName pfx name ∧
    r.tracked = tracked ++ [name] ∧
    r.tracked.length = tracked.length + 1 := by
  subst hname
  intro r
  have hlk : lookupString [("prefix", GoValue.str pfx)] "prefix" = pfx := rfl
  have hr : r = ⟨sdkSuccessWithOutputs
      ("Created namespace " ++ (pfx ++ "-" ++ generateID bs))
      [("namespace", pfx ++ "-" ++ generateID bs)],
      tracked ++ [pfx ++ "-" ++ generateID bs], [pfx ++ "-" ++ generateID bs]⟩ := by
    show handleCreateNamespace _ _ _ _ _ = _
    simp only [handleCreateNamespace, hlk, if_neg hpfx, hecho]
    rfl
  rw [hr]
  refine ⟨rfl, rfl, matchesGeneratedName_of_bytes pfx bs hlen, rfl, by simp⟩

/-- C1 witness: concrete instance with prefix `vm-test`, a faithful client,
and the byte list `[0,…,7]`. -/
theorem createNamespace_success_tracks_generated_name_witness :
    let name := "vm-test" ++ "-" ++ generateID [0, 1, 2, 3, 4, 5, 6, 7]
    let r := handleCreateNamespace true (fun n => Except.ok n)
      (Except.ok [0, 1, 2, 3, 4, 5, 6, 7])
      (GoValue.vmap [("prefix", GoValue.str "vm-test")]) []
    r.result.success = true ∧
    r.result.outputs.lookup "namespace" = some name ∧
    matchesGeneratedName "vm-test" name ∧
    r.tracked = ([] : List String) ++ [name] ∧
    r.tracked.length = ([] : List String).length + 1 :=
  createNamespace_success_tracks_generated_name "vm-test" (by decide)
    (fun n => Except.ok n) (fun _ => rfl) [0, 1, 2, 3, 4, 5, 6, 7] (by decide) []
    ("vm-test" ++ "-" ++ generateID [0, 1, 2, 3, 4, 5, 6, 7]) rfl

/-- C3: if the resource client's `Create` call fails during
`createNamespace`, the operation returns a failed result (surfacing the
client error) and the tracked generated-namespace list is left exactly as it
was before the call. -/
theorem createNamespace_client_error_leaves_tracking
    (pfx : String) (hpfx : pfx ≠ "") (bs : List Nat)
    (createFn : String → Except String String) (emsg : String)
    (hfail : createFn (pfx ++ "-" ++ generateID bs) = Except.error emsg)
    (tracked : List String) :
    let r := handleCreateNamespace true createFn (Except.ok bs)
      (GoValue.vmap [("prefix", GoValue.str pfx)]) tracked
    r.result.success = false ∧
    r.result.error = "failed to create namespace: " ++ emsg ∧
    r.tracked = tracked := by
  intro r
  have hlk : lookupString [("prefix", GoValue.str pfx)] "prefix" = pfx := rfl
  have hr : r = ⟨sdkFailure ("failed to create namespace: " ++ emsg), tracked,
      [pfx ++ "-" ++ generateID bs]⟩ := by
    show handleCreateNamespace _ _ _ _ _ = _
    simp only [handleCreateNamespace, hlk, if_neg hpfx, hfail]
    rfl
  rw [hr]
  exact ⟨rfl, rfl, rfl⟩

/-- C3 witness: concrete instance with a client that refuses the create. -/
theorem createNamespace_client_error_leaves_tracking_witness :
    let r := handleCreateNamespace true (fun _ => Except.error "connection refused")
      (Except.ok [0, 1, 2, 3, 4, 5, 6, 7])
      (GoValue.vmap [("prefix", GoValue.str "vm-test")]) ["kept-ns"]
    r.result.success = false ∧
    r.result.error = "failed to create namespace: " ++ "connection refused" ∧
    r.tracked = ["kept-ns"] :=
  createNamespace_client_error_leaves_tracking "vm-test" (by decide)
    [0, 1, 2, 3, 4, 5, 6, 7] (fun _ => Except.error "connection refused")
    "connection refused" rfl ["kept-ns"]

/-- C9: `deleteGeneratedNamespaces` with an initialized client and an empty
tracked list returns success with the nothing-to-do message and issues no
resource-API delete call. -/
theorem deleteGenerated_empty_is_noop
    (deleteFn : String → Propagation → DeleteOutcome) :
    let r := handleDeleteGeneratedNamespaces true deleteFn []
    r.result.success = true ∧
    r.result.message = "No generated namespaces to delete" ∧
    r.deleteCalls = [] ∧
    r.tracked = [] :=
  ⟨rfl, rfl, rfl, rfl⟩

/-- The noop run of the delete handler on an empty tracked list. -/
lemma deleteGenerated_nil_eq (deleteFn : String → Propagation → DeleteOutcome) :
    handleDeleteGeneratedNamespaces true deleteFn [] =
      ⟨sdkSuccess "No generated namespaces to delete", [], [], []⟩ := rfl

/-- The delete handler's run on a non-empty tracked list, in closed form. -/
lemma deleteGenerated_cons_eq (deleteFn : String → Propagation → DeleteOutcome)
    (tracked : List String) (hne : tracked ≠ []) :
    handleDeleteGeneratedNamespaces true deleteFn tracked =
      (if 0 < (tracked.filterMap (deleteErrEntry deleteFn)).length then
        ⟨sdkFailure ("failed to delete namespaces: "
            ++ String.intercalate "; " (tracked.filterMap (deleteErrEntry deleteFn))),
         [], tracked.map (fun ns => (ns, Propagation.foreground)),
         tracked.filterMap (deleteErrEntry deleteFn)⟩
      else
        ⟨sdkSuccess ("Deleted " ++ toString tracked.length ++ " generated namespace(s)"),
         [], tracked.map (fun ns => (ns, Propagation.foreground)),
         tracked.filterMap (deleteErrEntry deleteFn)⟩) := by
  have h0 : ¬ tracked.length = 0 := by
    simpa [List.length_eq_zero] using hne
  unfold handleDeleteGeneratedNamespaces
  rw [if_neg (by simp), if_neg h0]

/-- A delete-error entry exists exactly for the hard (non-not-found) error
class. -/
lemma deleteErrEntry_eq_none_iff (deleteFn : String → Propagation → DeleteOutcome)
    (ns : String) :
    deleteErrEntry deleteFn ns = none ↔
      isHardError (deleteFn ns Propagation.foreground) = false := by
  unfold deleteErrEntry isHardError
  rcases deleteFn ns Propagation.foreground <;> simp

/-! ## C2, C4, C10 -/

/-- C2: with an initialized client, `deleteGeneratedNamespaces` operates on
the snapshot taken by the lock-guarded swap (modelled as the atomic
state transition at the head of the handler, before any delete call): it
issues its deletes exactly for the snapshot, leaves the tracked list empty
whatever the individual delete outcomes were, a second call then degenerates
to a successful no-op with no delete calls, and the two runs together
observe each tracked name exactly once. -/
theorem deleteGenerated_snapshot_clear_and_noop_second_run
    (deleteFn1 deleteFn2 : String → Propagation → DeleteOutcome) (tracked : List String) :
    let r1 := handleDeleteGeneratedNamespaces true deleteFn1 tracked
    let r2 := handleDeleteGeneratedNamespaces true deleteFn2 r1.tracked
    r1.deleteCalls = tracked.map (fun ns => (ns, Propagation.foreground)) ∧
    r1.tracked = [] ∧
    r2.result.success = true ∧
    r2.deleteCalls = [] ∧
    r2.tracked = [] ∧
    (r1.deleteCalls ++ r2.deleteCalls).map Prod.fst = tracked := by
  intro r1 r2
  have h1 : r1.deleteCalls = tracked.map (fun ns => (ns, Propagation.foreground)) ∧
      r1.tracked = [] := by
    show (handleDeleteGeneratedNamespaces true deleteFn1 tracked).deleteCalls = _ ∧
      (handleDeleteGeneratedNamespaces true deleteFn1 tracked).tracked = _
    rcases eq_or_ne tracked [] with rfl | hne
    · rw [deleteGenerated_nil_eq]; exact ⟨rfl, rfl⟩
    · rw [deleteGenerated_cons_eq deleteFn1 tracked hne]
      split <;> exact ⟨rfl, rfl⟩
  have h2 : r2 = ⟨sdkSuccess "No generated namespaces to delete", [], [], []⟩ := by
    show handleDeleteGeneratedNamespaces true deleteFn2 r1.tracked = _
    rw [h1.2, deleteGenerated_nil_eq]
  refine ⟨h1.1, h1.2, by rw [h2]; rfl, by rw [h2], by rw [h2], ?_⟩
  show List.map Prod.fst (r1.deleteCalls ++ r2.deleteCalls) = tracked
  rw [h1.1, h2]
  show List.map Prod.fst
    (List.map (fun ns => (ns, Propagation.foreground)) tracked ++ []) = tracked
  rw [List.append_nil, List.map_map]
  exact List.map_id tracked

/-- C4: on a non-empty snapshot (initialized client), the handler issues one
foreground-propagation delete per tracked namespace; not-found outcomes are
skipped and alone never cause failure; each non-not-found error is collected
as its `ns: msg` entry; the run fails exactly when at least one non-not-found
error occurred, and the failure text joins all collected entries with `"; "`;
the tracked list is cleared in either case. -/
theorem deleteGenerated_error_collection
    (deleteFn : String → Propagation → DeleteOutcome)
    (tracked : List String) (hne : tracked ≠ []) :
    let r := handleDeleteGeneratedNamespaces true deleteFn tracked
    r.deleteCalls = tracked.map (fun ns => (ns, Propagation.foreground)) ∧
    r.tracked = [] ∧
    (r.result.success = false ↔
      ∃ ns ∈ tracked, isHardError (deleteFn ns Propagation.foreground) = true) ∧
    (∀ ns m, ns ∈ tracked → deleteFn ns Propagation.foreground = DeleteOutcome.failed m →
      (ns ++ ": " ++ m) ∈ r.errs) ∧
    (r.result.success = false →
      r.result.error = "failed to delete namespaces: " ++ String.intercalate "; " r.errs) := by
  intro r
  have hiff : 0 < (tracked.filterMap (deleteErrEntry deleteFn)).length ↔
      ∃ ns ∈ tracked, isHardError (deleteFn ns Propagation.foreground) = true := by
    rw [List.length_pos, Ne, List.filterMap_eq_nil_iff]
    push_neg
    constructor
    · rintro ⟨ns, hmem, hsome⟩
      refine ⟨ns, hmem, ?_⟩
      by_contra hno
      exact hsome ((deleteErrEntry_eq_none_iff deleteFn ns).mpr (by simpa using hno))
    · rintro ⟨ns, hmem, hhard⟩
      refine ⟨ns, hmem, fun hnone => ?_⟩
      rw [deleteErrEntry_eq_none_iff] at hnone
      rw [hhard] at hnone
      exact absurd hnone (by decide)
  have hmem_err : ∀ ns m, ns ∈ tracked →
      deleteFn ns Propagation.foreground = DeleteOutcome.failed m →
      (ns ++ ": " ++ m) ∈ tracked.filterMap (deleteErrEntry deleteFn) := by
    intro ns m hmem hfail
    exact List.mem_filterMap.mpr ⟨ns, hmem, by unfold deleteErrEntry; rw [hfail]⟩
  have hrw := deleteGenerated_cons_eq deleteFn tracked hne
  by_cases herr : 0 < (tracked.filterMap (deleteErrEntry deleteFn)).length
  · rw [if_pos herr] at hrw
    have hr : r = ⟨sdkFailure ("failed to delete namespaces: "
        ++ String.intercalate "; " (tracked.filterMap (deleteErrEntry deleteFn))),
        [], tracked.map (fun ns => (ns, Propagation.foreground)),
        tracked.filterMap (deleteErrEntry deleteFn)⟩ := hrw
    refine ⟨by rw [hr], by rw [hr], ?_, ?_, ?_⟩
    · rw [hr]; exact iff_of_true rfl (hiff.mp herr)
    · intro ns m hmem hfail; rw [hr]; exact hmem_err ns m hmem hfail
    · intro _; rw [hr]; rfl
  · rw [if_neg herr] at hrw
    have hr : r = ⟨sdkSuccess ("Deleted " ++ toString tracked.length
        ++ " generated namespace(s)"),
        [], tracked.map (fun ns => (ns, Propagation.foreground)),
        tracked.filterMap (deleteErrEntry deleteFn)⟩ := hrw
    refine ⟨by rw [hr], by rw [hr], ?_, ?_, ?_⟩
    · rw [hr]
      constructor
      · intro h; exact absurd h (by simp [sdkSuccess])
      · intro h; exact absurd (hiff.mpr h) herr
    · intro ns m hmem hfail; rw [hr]; exact hmem_err ns m hmem hfail
    · intro h; rw [hr] at h; exact absurd h (by simp [sdkSuccess])

/-- C4 witness: one tracked namespace whose delete is refused with a
non-not-found error. -/
theorem deleteGenerated_error_collection_witness :
    let r := handleDeleteGeneratedNamespaces true
      (fun _ _ => DeleteOutcome.failed "permission denied") ["vm-test-err"]
    r.deleteCalls = ["vm-test-err"].map (fun ns => (ns, Propagation.foreground)) ∧
    r.tracked = [] ∧
    (r.result.success = false ↔
      ∃ ns ∈ ["vm-test-err"],
        isHardError ((fun _ _ => DeleteOutcome.failed "permission denied") ns
          Propagation.foreground) = true) ∧
    (∀ ns m, ns ∈ ["vm-test-err"] →
      (fun _ _ => DeleteOutcome.failed "permission denied") ns Propagation.foreground
        = DeleteOutcome.failed m → (ns ++ ": " ++ m) ∈ r.errs) ∧
    (r.result.success = false →
      r.result.error = "failed to delete namespaces: " ++ String.intercalate "; " r.errs) :=
  deleteGenerated_error_collection (fun _ _ => DeleteOutcome.failed "permission denied")
    ["vm-test-err"] (by decide)

/-- C10: a successful non-empty `deleteGeneratedNamespaces` run reports the
length of the whole snapshot in its `Deleted N generated namespace(s)`
message, with not-found (already gone) namespaces counted as deleted, so the
reported `N` can exceed the number of deletes the client actually performed
(the closing conjuncts exhibit this: one tracked namespace already gone
reports `Deleted 1` while zero deletes succeeded). -/
theorem deleteGenerated_success_reports_snapshot_count
    (deleteFn : String → Propagation → DeleteOutcome)
    (tracked : List String) (hne : tracked ≠ [])
    (hnohard : ∀ ns ∈ tracked, isHardError (deleteFn ns Propagation.foreground) = false) :
    let r := handleDeleteGeneratedNamespaces true deleteFn tracked
    r.result.success = true ∧
    r.result.message = "Deleted " ++ toString tracked.length ++ " generated namespace(s)" ∧
    (tracked.filter
      (fun ns => deleteFn ns Propagation.foreground == DeleteOutcome.ok)).length
      ≤ tracked.length ∧
    (handleDeleteGeneratedNamespaces true (fun _ _ => DeleteOutcome.notFound)
      ["vm-test-gone"]).result.message = "Deleted 1 generated namespace(s)" ∧
    (["vm-test-gone"].filter
      (fun ns => (fun _ _ => DeleteOutcome.notFound) ns Propagation.foreground
        == DeleteOutcome.ok)).length = 0 := by
  intro r
  have herrs : tracked.filterMap (deleteErrEntry deleteFn) = [] := by
    rw [List.filterMap_eq_nil_iff]
    intro ns hmem
    exact (deleteErrEntry_eq_none_iff deleteFn ns).mpr (hnohard ns hmem)
  have hrw := deleteGenerated_cons_eq deleteFn tracked hne
  rw [herrs, if_neg (by simp)] at hrw
  have hr : r = ⟨sdkSuccess ("Deleted " ++ toString tracked.length
      ++ " generated namespace(s)"),
      [], tracked.map (fun ns => (ns, Propagation.foreground)), []⟩ := hrw
  refine ⟨by rw [hr]; rfl, by rw [hr]; rfl, List.length_filter_le _ _, by decide, by decide⟩

/-- C10 witness: two tracked namespaces, both deletes succeeding. -/
theorem deleteGenerated_success_reports_snapshot_count_witness :
    let r := handleDeleteGeneratedNamespaces true (fun _ _ => DeleteOutcome.ok)
      ["vm-test-abc123", "vm-test-def456"]
    r.result.success = true ∧
    r.result.message = "Deleted "
      ++ toString (["vm-test-abc123", "vm-test-def456"] : List String).length
      ++ " generated namespace(s)" ∧
    ((["vm-test-abc123", "vm-test-def456"] : List String).filter
      (fun ns => (fun _ _ => DeleteOutcome.ok) ns Propagation.foreground
        == DeleteOutcome.ok)).length
      ≤ (["vm-test-abc123", "vm-test-def456"] : List String).length ∧
    (handleDeleteGeneratedNamespaces true (fun _ _ => DeleteOutcome.notFound)
      ["vm-test-gone"]).result.message = "Deleted 1 generated namespace(s)" ∧
    (["vm-test-gone"].filter
      (fun ns => (fun _ _ => DeleteOutcome.notFound) ns Propagation.foreground
        == DeleteOutcome.ok)).length = 0 :=
  deleteGenerated_success_reports_snapshot_count (fun _ _ => DeleteOutcome.ok)
    ["vm-test-abc123", "vm-test-def456"] (by decide) (by decide)

/-! ## C5 -/

/-- C5 counterexample: the byte-to-symbol map `b ↦ b % 36` is not
equidistributed over the 256 byte values — alphabet position 0 (`a`) is
selected by 8 byte values while position 4 (`e`) is selected by only 7
(256 = 7·36 + 4), so not every symbol is assigned the same number of byte
values. -/
theorem generateID_modulo_bias : indexCount 0 = 8 ∧ indexCount 4 = 7 ∧
    ¬ indexCount 0 = indexCount 4 := by decide

/-- C5 amended: each id character is drawn from the 36-symbol alphabet via
`byte % 36`, which is only near-uniform: the four symbols at positions 0–3
(`a`–`d`) are each selected by 8 of the 256 byte values and the remaining 32
symbols by 7 each; every byte value maps into the lowercase-alphanumeric
alphabet. -/
theorem generateID_near_uniform :
    (∀ i, i < 36 → indexCount i = if i < 4 then 8 else 7) ∧
    (∀ b, isLowerAlnum (byteToChar b) = true) :=
  ⟨by decide, byteToChar_isLowerAlnum⟩

/-- C5 witness: the amended distribution at position 0 and the alphabet
membership at byte value 255. -/
theorem generateID_near_uniform_witness :
    (0 < 36 ∧ indexCount 0 = if 0 < 4 then 8 else 7) ∧
    isLowerAlnum (byteToChar 255) = true :=
  ⟨⟨by decide, generateID_near_uniform.1 0 (by decide)⟩,
   generateID_near_uniform.2 255⟩

/-! ## C6 -/

/-- C6: for each argument-requiring operation (`createNamespace`,
`helmInstall`, `helmList`, `helmUninstall`), supplying arguments that are
not a string-keyed mapping yields a failed result with the message
`args must be an object`, with no resource-API call and no shell call
issued (and, for `createNamespace`, the tracked list untouched). -/
theorem nonObject_args_rejected_without_calls
    (g : GoValue) (hng : ∀ fields, g ≠ GoValue.vmap fields)
    (createFn : String → Except String String) (randBytes : Except String (List Nat))
    (tracked : List String) (kubeconfigPath : String)
    (exec : List String → String × Option String)
    (parse : String → Except String (List (List (String × GoValue)))) :
    (let r := handleCreateNamespace true createFn randBytes g tracked
     r.result = sdkFailure "args must be an object" ∧
     r.createCalls = [] ∧ r.tracked = tracked) ∧
    (let r := handleHelmInstall kubeconfigPath exec g
     r.result = sdkFailure "args must be an object" ∧ r.execCalls = []) ∧
    (let r := handleHelmList kubeconfigPath exec parse g
     r.result = sdkFailure "args must be an object" ∧ r.execCalls = []) ∧
    (let r := handleHelmUninstall kubeconfigPath exec g
     r.result = sdkFailure "args must be an object" ∧ r.execCalls = []) := by
  cases g with
  | str s => exact ⟨⟨rfl, rfl, rfl⟩, ⟨rfl, rfl⟩, ⟨rfl, rfl⟩, ⟨rfl, rfl⟩⟩
  | boolean b => exact ⟨⟨rfl, rfl, rfl⟩, ⟨rfl, rfl⟩, ⟨rfl, rfl⟩, ⟨rfl, rfl⟩⟩
  | vmap fields => exact absurd rfl (hng fields)
  | other => exact ⟨⟨rfl, rfl, rfl⟩, ⟨rfl, rfl⟩, ⟨rfl, rfl⟩, ⟨rfl, rfl⟩⟩

/-- C6 witness: the string argument `"invalid"` (the shape the tests use)
rejected by all four handlers. -/
theorem nonObject_args_rejected_without_calls_witness :
    (let r := handleCreateNamespace true (fun n => Except.ok n) (Except.ok [])
       (GoValue.str "invalid") ["kept-ns"]
     r.result = sdkFailure "args must be an object" ∧
     r.createCalls = [] ∧ r.tracked = ["kept-ns"]) ∧
    (let r := handleHelmInstall "" (fun _ => ("", none)) (GoValue.str "invalid")
     r.result = sdkFailure "args must be an object" ∧ r.execCalls = []) ∧
    (let r := handleHelmList "" (fun _ => ("", none)) (fun _ => Except.ok [])
       (GoValue.str "invalid")
     r.result = sdkFailure "args must be an object" ∧ r.execCalls = []) ∧
    (let r := handleHelmUninstall "" (fun _ => ("", none)) (GoValue.str "invalid")
     r.result = sdkFailure "args must be an object" ∧ r.execCalls = []) :=
  nonObject_args_rejected_without_calls (GoValue.str "invalid")
    (fun _ h => GoValue.noConfusion h) (fun n => Except.ok n) (Except.ok [])
    ["kept-ns"] "" (fun _ => ("", none)) (fun _ => Except.ok [])

/-! ## C8 -/

/-- C8: when an `authCanI` invocation supplies `expect.allowed`, the
operation's success is exactly `allowed == expectedAllowed`, where `allowed`
is the resource client's permission-check answer; the raw `allowed` value is
surfaced under the `allowed` outputs key whether or not it matches. -/
theorem authCanI_expectation_defines_success
    (check : PermissionQuery → Except String Bool) (allowed expectedAllowed : Bool)
    (m : List (String × GoValue))
    (hverb : lookupString m "verb" ≠ "")
    (hres : lookupString m "resource" ≠ "")
    (hsubj : lookupString m "as" ≠ "")
    (hexp : (lookupMap m "expect").lookup "allowed" = some (GoValue.boolean expectedAllowed))
    (hcheck : ∀ q, check q = Except.ok allowed) :
    let r := handleAuthCanI check (GoValue.vmap m)
    r.success = (allowed == expectedAllowed) ∧
    r.outputs.lookup "allowed" = some (boolString allowed) := by
  intro r
  show (handleAuthCanI check (GoValue.vmap m)).success = _ ∧
    (handleAuthCanI check (GoValue.vmap m)).outputs.lookup "allowed" = _
  simp only [handleAuthCanI]
  rw [if_neg hverb, if_neg hres, if_neg hsubj]
  simp only [hcheck, hexp]
  by_cases hb : (allowed == expectedAllowed) = true
  · rw [if_pos hb, hb]
    exact ⟨rfl, rfl⟩
  · rw [if_neg hb]
    refine ⟨?_, rfl⟩
    rw [Bool.not_eq_true] at hb
    rw [hb]

/-- C8 witness: an expectation of `allowed = true` against a check answering
`false` — overall failure, with `allowed: false` still in the outputs. -/
theorem authCanI_expectation_defines_success_witness :
    let r := handleAuthCanI (fun _ => Except.ok false)
      (GoValue.vmap [("verb", GoValue.str "get"), ("resource", GoValue.str "pods"),
        ("as", GoValue.str "alice"),
        ("expect", GoValue.vmap [("allowed", GoValue.boolean true)])])
    r.success = (false == true) ∧
    r.outputs.lookup "allowed" = some (boolString false) :=
  authCanI_expectation_defines_success (fun _ => Except.ok false) false true
    [("verb", GoValue.str "get"), ("resource", GoValue.str "pods"),
     ("as", GoValue.str "alice"),
     ("expect", GoValue.vmap [("allowed", GoValue.boolean true)])]
    (by decide) (by decide) (by decide) rfl (fun _ => rfl)

/-! ## Wait-engine lemmas -/

/-- A hard read error terminates the loop as FAILED. -/
lemma waitFrom_failed (read : Nat → ReadResult) (c e : String) (dl i : Nat)
    (hi : 0 < i) (now : Nat) (msg : String) (h : read now = ReadResult.readError msg) :
    waitFrom read c e dl i hi now = WaitOutcome.failed msg := by
  rw [waitFrom.eq_def]
  simp only [h]

/-- A satisfying read terminates the loop as SATISFIED at the current
instant, regardless of the deadline. -/
lemma waitFrom_sat (read : Nat → ReadResult) (c e : String) (dl i : Nat)
    (hi : 0 < i) (now : Nat) (h : readSat read c e now = true) :
    waitFrom read c e dl i hi now = WaitOutcome.satisfied now := by
  unfold readSat at h
  rcases hr : read now with _ | msg | conds
  · rw [hr] at h; exact Bool.noConfusion h
  · rw [hr] at h; exact Bool.noConfusion h
  · rw [hr] at h
    have h' : condSatisfied conds c e = true := h
    rw [waitFrom.eq_def]
    simp only [hr]
    rw [if_pos h']

/-- An unsatisfying, non-failing read either times out (deadline reached) or
re-polls one interval later. -/
lemma waitFrom_cont (read : Nat → ReadResult) (c e : String) (dl i : Nat)
    (hi : 0 < i) (now : Nat)
    (hs : readSat read c e now = false) (hf : readFailed read now = false) :
    waitFrom read c e dl i hi now =
      if dl ≤ now then WaitOutcome.timedOut
      else waitFrom read c e dl i hi (now + i) := by
  rcases hr : read now with _ | msg | conds
  · rw [waitFrom.eq_def]
    simp only [hr]
    by_cases hd : dl ≤ now
    · rw [dif_pos hd, if_pos hd]
    · rw [dif_neg hd, if_neg hd]
  · unfold readFailed at hf; rw [hr] at hf; exact Bool.noConfusion hf
  · unfold readSat at hs; rw [hr] at hs
    have hs' : condSatisfied conds c e = false := hs
    rw [waitFrom.eq_def]
    simp only [hr]
    rw [if_neg (by simp [hs'])]
    by_cases hd : dl ≤ now
    · rw [dif_pos hd, if_pos hd]
    · rw [dif_neg hd, if_neg hd]

/-- One-step unfolding of the success witness. -/
lemma satWitnessFrom_unfold (read : Nat → ReadResult) (c e : String) (dl i now : Nat) :
    satWitnessFrom read c e dl i now ↔
      readSat read c e now = true ∨
        (readFailed read now = false ∧ readSat read c e now = false ∧ now < dl ∧
          satWitnessFrom read c e dl i (now + i)) := by
  constructor
  · rintro ⟨k, hk, hprev⟩
    cases k with
    | zero => left; simpa using hk
    | succ k' =>
      right
      have h0 := hprev 0 (Nat.succ_pos k')
      simp only [Nat.zero_mul, Nat.add_zero] at h0
      refine ⟨h0.1, h0.2.1, h0.2.2, k', ?_, ?_⟩
      · have harith : now + i + k' * i = now + (k' + 1) * i := by ring
        rw [harith]; exact hk
      · intro j hj
        have harith : now + i + j * i = now + (j + 1) * i := by ring
        rw [harith]
        exact hprev (j + 1) (by omega)
  · rintro (h | ⟨hf, hs, hd, k', hk, hprev⟩)
    · exact ⟨0, by simpa using h, fun j hj => absurd hj (Nat.not_lt_zero j)⟩
    · refine ⟨k' + 1, ?_, ?_⟩
      · have harith : now + (k' + 1) * i = now + i + k' * i := by ring
        rw [harith]; exact hk
      · intro j hj
        cases j with
        | zero => simpa using ⟨hf, hs, hd⟩
        | succ j' =>
          have harith : now + (j' + 1) * i = now + i + j' * i := by ring
          rw [harith]
          exact hprev j' (by omega)

/-- The loop from `now` succeeds iff the success witness holds at `now`,
assuming it holds one interval later (the induction step). -/
lemma waitFrom_iff_step (read : Nat → ReadResult) (c e : String) (dl i : Nat)
    (hi : 0 < i) (now : Nat)
    (H : ¬ dl ≤ now →
      ((∃ t, waitFrom read c e dl i hi (now + i) = WaitOutcome.satisfied t) ↔
        satWitnessFrom read c e dl i (now + i))) :
    (∃ t, waitFrom read c e dl i hi now = WaitOutcome.satisfied t) ↔
      satWitnessFrom read c e dl i now := by
  rw [satWitnessFrom_unfold]
  by_cases hs : readSat read c e now = true
  · rw [waitFrom_sat read c e dl i hi now hs]
    exact ⟨fun _ => Or.inl hs, fun _ => ⟨now, rfl⟩⟩
  · have hs' : readSat read c e now = false := by simpa using hs
    by_cases hf : readFailed read now = true
    · obtain ⟨msg, hmsg⟩ : ∃ msg, read now = ReadResult.readError msg := by
        unfold readFailed at hf
        rcases hr : read now with _ | msg | conds <;> rw [hr] at hf
        · exact Bool.noConfusion hf
        · exact ⟨msg, rfl⟩
        · exact Bool.noConfusion hf
      rw [waitFrom_failed read c e dl i hi now msg hmsg]
      constructor
      · rintro ⟨t, ht⟩; exact WaitOutcome.noConfusion ht
      · rintro (h | ⟨hf2, _, _, _⟩)
        · rw [hs'] at h; exact Bool.noConfusion h
        · rw [hf] at hf2; exact Bool.noConfusion hf2
    · have hf' : readFailed read now = false := by simpa using hf
      rw [waitFrom_cont read c e dl i hi now hs' hf']
      by_cases hd : dl ≤ now
      · rw [if_pos hd]
        constructor
        · rintro ⟨t, ht⟩; exact WaitOutcome.noConfusion ht
        · rintro (h | ⟨_, _, hlt, _⟩)
          · rw [hs'] at h; exact Bool.noConfusion h
          · omega
      · rw [if_neg hd, H hd]
        constructor
        · intro h; exact Or.inr ⟨hf', hs', by omega, h⟩
        · rintro (h | ⟨_, _, _, h⟩)
          · rw [hs'] at h; exact Bool.noConfusion h
          · exact h

/-- The loop from any instant succeeds iff the success witness holds there
(fuel-indexed strong induction over the remaining time to the deadline). -/
lemma waitFrom_satisfied_iff (read : Nat → ReadResult) (c e : String) (dl i : Nat)
    (hi : 0 < i) :
    ∀ fuel now, dl + 1 - now ≤ fuel →
      ((∃ t, waitFrom read c e dl i hi now = WaitOutcome.satisfied t) ↔
        satWitnessFrom read c e dl i now) := by
  intro fuel
  induction fuel with
  | zero =>
    intro now hfuel
    refine waitFrom_iff_step read c e dl i hi now ?_
    intro hd
    exact absurd (show dl ≤ now by omega) hd
  | succ f ih =>
    intro now hfuel
    refine waitFrom_iff_step read c e dl i hi now ?_
    intro hd
    exact ih (now + i) (by omega)

/-- A resource that never exists (every read not-found) makes the loop time
out — at every entry instant, hence in particular it never hangs. -/
lemma waitFrom_allNotFound (read : Nat → ReadResult) (c e : String) (dl i : Nat)
    (hi : 0 < i) (hnf : ∀ t, read t = ReadResult.notFound) :
    ∀ fuel now, dl + 1 - now ≤ fuel →
      waitFrom read c e dl i hi now = WaitOutcome.timedOut := by
  intro fuel
  induction fuel with
  | zero =>
    intro now hfuel
    rw [waitFrom.eq_def]
    simp only [hnf now]
    rw [dif_pos (show dl ≤ now by omega)]
  | succ f ih =>
    intro now hfuel
    rw [waitFrom.eq_def]
    simp only [hnf now]
    by_cases hd : dl ≤ now
    · rw [dif_pos hd]
    · rw [dif_neg hd]
      exact ih (now + i) (by omega)

/-! ## C7 -/

/-- C7 counterexample: with deadline 1 and poll interval 2, a resource whose
`Ready` condition only becomes `True` at t = 2 still makes the wait succeed
(`SATISFIED` at elapsed time 2): the loop's last poll may land past the
deadline and its condition check precedes its timeout check, yet no read at
or before the deadline (t = 0 and t = 1) satisfies the condition — so
success does not imply a satisfying read before the deadline, refuting the
claim's only-if direction as stated. -/
theorem wait_success_after_deadline :
    waitForCondition readLate "Ready" "True" 1 2 pos2 = WaitOutcome.satisfied 2 ∧
    readSat readLate "Ready" "True" 0 = false ∧
    readSat readLate "Ready" "True" 1 = false := by
  refine ⟨?_, by decide, by decide⟩
  have h1 : waitForCondition readLate "Ready" "True" 1 2 pos2
      = waitFrom readLate "Ready" "True" 1 2 pos2 (0 + 2) := by
    unfold waitForCondition
    rw [waitFrom_cont readLate "Ready" "True" 1 2 pos2 0 (by decide) (by decide)]
    rw [if_neg (by omega)]
  rw [h1]
  exact waitFrom_sat readLate "Ready" "True" 1 2 pos2 (0 + 2) (by decide)

/-- C7 (amended): the wait returns success if and only if some performed
poll (the instants `0, interval, 2·interval, …`, of which the last may
overshoot the deadline by less than one interval) reads the requested
condition with the expected status while every earlier poll neither
hard-fails nor satisfies and lies before the deadline; in particular a
condition satisfied exactly at t = deadline counts (condition check before
timeout check), and a resource that never exists makes the wait time out
rather than hang. -/
theorem wait_success_characterization (read : Nat → ReadResult)
    (cond expected : String) (deadline interval : Nat) (hi : 0 < interval) :
    ((∃ t, waitForCondition read cond expected deadline interval hi
        = WaitOutcome.satisfied t) ↔
      (∃ k, readSat read cond expected (k * interval) = true ∧
        ∀ j < k, readFailed read (j * interval) = false ∧
          readSat read cond expected (j * interval) = false ∧
          j * interval < deadline)) ∧
    ((∀ t, read t = ReadResult.notFound) →
      waitForCondition read cond expected deadline interval hi
        = WaitOutcome.timedOut) := by
  constructor
  · have h := waitFrom_satisfied_iff read cond expected deadline interval hi
      (deadline + 1) 0 (by omega)
    unfold waitForCondition
    rw [h]
    unfold satWitnessFrom
    simp only [Nat.zero_add]
  · intro hnf
    unfold waitForCondition
    exact waitFrom_allNotFound read cond expected deadline interval hi hnf
      (deadline + 1) 0 (by omega)

/-- C7 witness: a never-existing resource with deadline 3 and interval 2
times out. -/
theorem wait_success_characterization_witness :
    waitForCondition readNone "Ready" "True" 3 2 pos2 = WaitOutcome.timedOut :=
  (wait_success_characterization readNone "Ready" "True" 3 2 pos2).2 (fun _ => rfl)

end KubeExt
